import Mathlib

/-!
Verification of the provider OCI pull pipeline of `sourceplane/thin`.

The definitions below are a shallow embedding of the Go source:
  - `internal/runtime/oci.go` (layer classification in `PullProviderOCI`,
    `extractLayerContent`, `extractTarWithReader`, `trackedFetchAll`,
    `contains`, `lastIndexOf`),
  - `internal/runtime/home.go` (`ThinHome`),
  - the status-handler file (`TTYStatusHandler.render`).
Byte slices are modelled as `List Nat`, Go strings either as `String`
(media types, paths) or as `List Char` (the hand-rolled substring
helpers, which operate index-by-index).
-/

/-! ## Media types and layer descriptors (oci.go, PullProviderOCI lines 109-170) -/

/-- Media type of empty placeholder layers: `application/vnd.oci.empty.v1+json`. -/
def emptyMediaType : String := "application/vnd.oci.empty.v1+json"

/-- Media type of the provider manifest layer. -/
def providerMediaType : String := "application/vnd.sourceplane.provider.v1"

/-- Media type of the assets layer. -/
def assetsMediaType : String := "application/vnd.sourceplane.assets.v1"

/-- Common start of all per-platform binary media types
(`application/vnd.sourceplane.bin.`). -/
def binMediaRoot : String := "application/vnd.sourceplane.bin."

/-- Platform binary media type for a given os/arch, as computed by
`fmt.Sprintf("application/vnd.sourceplane.bin.%s-%s", currentOS, currentArch)`. -/
def binaryMediaTypeFor (os arch : String) : String :=
  binMediaRoot ++ os ++ "-" ++ arch

/-- OCI layer descriptor: the fields of `ocispec.Descriptor` this pipeline reads. -/
structure Descriptor where
  mediaType : String
  digest : String
  size : Int
deriving DecidableEq, Repr

/-- The three per-role selections built by the classification loop
(the local variables `providerLayer`, `assetsLayer`, `binaryLayer`). -/
structure Classification where
  providerLayer : Option Descriptor
  assetsLayer : Option Descriptor
  binaryLayer : Option Descriptor
deriving DecidableEq, Repr

/-- One iteration of the classification `switch` (oci.go lines 121-139).
The `bmt` parameter is the precomputed platform-binary media type.  The two
remaining source cases (a binary media type of another platform, and
the default case) are both `continue`, i.e. leave the selections unchanged. -/
def classifyStep (bmt : String) (acc : Classification) (layer : Descriptor) : Classification :=
  if layer.mediaType = emptyMediaType then acc
  else if layer.mediaType = providerMediaType then { acc with providerLayer := some layer }
  else if layer.mediaType = assetsMediaType then { acc with assetsLayer := some layer }
  else if layer.mediaType = bmt then { acc with binaryLayer := some layer }
  else acc

/-- The classification loop over `manifest.Layers` (oci.go lines 121-139). -/
def classifyLayers (bmt : String) (layers : List Descriptor) : Classification :=
  layers.foldl (classifyStep bmt) ⟨none, none, none⟩

/-- Result of layer planning: the ordered `layersToDownload` plus whether the
legacy (multi-platform) fallback path was taken. -/
structure PullPlan where
  downloadSet : List Descriptor
  legacyFallback : Bool
deriving DecidableEq, Repr

/-- Layer selection and validation of `PullProviderOCI` (oci.go lines 141-170):
build `layersToDownload` as provider, assets, binary (each when present); fail
when it is empty, or when neither a provider nor an assets layer was found;
when no platform binary was found, fall back to every non-placeholder layer in
manifest order. -/
def planLayers (bmt : String) (layers : List Descriptor) : Except String PullPlan :=
  let c := classifyLayers bmt layers
  let base := c.providerLayer.toList ++ c.assetsLayer.toList ++ c.binaryLayer.toList
  if base.length = 0 then
    Except.error "no compatible provider layers found in manifest"
  else if c.providerLayer.isNone && c.assetsLayer.isNone then
    Except.error "provider manifest layer not found in manifest"
  else if c.binaryLayer.isNone then
    Except.ok { downloadSet := layers.filter (fun l => l.mediaType != emptyMediaType),
                legacyFallback := true }
  else
    Except.ok { downloadSet := base, legacyFallback := false }

/-! ## Classification lemmas -/

/-- Appending one layer on the right performs one more `classifyStep`. -/
theorem classifyLayers_append_one (bmt : String) (layers : List Descriptor) (x : Descriptor) :
    classifyLayers bmt (layers ++ [x]) = classifyStep bmt (classifyLayers bmt layers) x := by
  simp [classifyLayers, List.foldl_append]

/-- A non-provider-typed layer leaves the provider selection unchanged. -/
theorem classifyStep_providerLayer (bmt : String) (acc : Classification) (x : Descriptor)
    (hx : x.mediaType ≠ providerMediaType) :
    (classifyStep bmt acc x).providerLayer = acc.providerLayer := by
  unfold classifyStep
  split_ifs <;> rfl

/-- A non-assets-typed layer leaves the assets selection unchanged. -/
theorem classifyStep_assetsLayer (bmt : String) (acc : Classification) (x : Descriptor)
    (hx : x.mediaType ≠ assetsMediaType) :
    (classifyStep bmt acc x).assetsLayer = acc.assetsLayer := by
  unfold classifyStep
  split_ifs <;> rfl

/-- A layer whose media type is not the platform-binary one leaves the binary
selection unchanged. -/
theorem classifyStep_binaryLayer (bmt : String) (acc : Classification) (x : Descriptor)
    (hx : x.mediaType ≠ bmt) :
    (classifyStep bmt acc x).binaryLayer = acc.binaryLayer := by
  unfold classifyStep
  split_ifs <;> rfl

/-- The selected provider layer is the last manifest layer carrying the
provider media type (later matches overwrite earlier ones). -/
theorem classify_provider_eq_getLast (bmt : String) (layers : List Descriptor) :
    (classifyLayers bmt layers).providerLayer =
      (layers.filter (fun l => l.mediaType == providerMediaType)).getLast? := by
  induction layers using List.reverseRecOn with
  | nil => rfl
  | append_singleton xs x ih =>
    rw [classifyLayers_append_one, List.filter_append]
    by_cases hx : x.mediaType = providerMediaType
    · have hne : x.mediaType ≠ emptyMediaType := by rw [hx]; decide
      simp only [classifyStep, if_neg hne, if_pos hx]
      simp [hx, List.getLast?_concat]
    · have hfx : (List.filter (fun l => l.mediaType == providerMediaType) [x]) = [] := by
        simp [hx]
      rw [hfx, List.append_nil, ← ih]
      exact classifyStep_providerLayer bmt _ x hx

/-- The selected assets layer is the last manifest layer carrying the
assets media type. -/
theorem classify_assets_eq_getLast (bmt : String) (layers : List Descriptor) :
    (classifyLayers bmt layers).assetsLayer =
      (layers.filter (fun l => l.mediaType == assetsMediaType)).getLast? := by
  induction layers using List.reverseRecOn with
  | nil => rfl
  | append_singleton xs x ih =>
    rw [classifyLayers_append_one, List.filter_append]
    by_cases hx : x.mediaType = assetsMediaType
    · have hne : x.mediaType ≠ emptyMediaType := by rw [hx]; decide
      have hnp : x.mediaType ≠ providerMediaType := by rw [hx]; decide
      simp only [classifyStep, if_neg hne, if_neg hnp, if_pos hx]
      simp [hx, List.getLast?_concat]
    · have hfx : (List.filter (fun l => l.mediaType == assetsMediaType) [x]) = [] := by
        simp [hx]
      rw [hfx, List.append_nil, ← ih]
      exact classifyStep_assetsLayer bmt _ x hx

/-- Provided the platform-binary media type differs from the three fixed role
media types (true of every `application/vnd.sourceplane.bin.<os>-<arch>`), the
selected binary layer is the last manifest layer whose media type equals it. -/
theorem classify_binary_eq_getLast (bmt : String) (layers : List Descriptor)
    (h1 : bmt ≠ emptyMediaType) (h2 : bmt ≠ providerMediaType) (h3 : bmt ≠ assetsMediaType) :
    (classifyLayers bmt layers).binaryLayer =
      (layers.filter (fun l => l.mediaType == bmt)).getLast? := by
  induction layers using List.reverseRecOn with
  | nil => rfl
  | append_singleton xs x ih =>
    rw [classifyLayers_append_one, List.filter_append]
    by_cases hx : x.mediaType = bmt
    · have hne : x.mediaType ≠ emptyMediaType := by rw [hx]; exact h1
      have hnp : x.mediaType ≠ providerMediaType := by rw [hx]; exact h2
      have hna : x.mediaType ≠ assetsMediaType := by rw [hx]; exact h3
      simp only [classifyStep, if_neg hne, if_neg hnp, if_neg hna, if_pos hx]
      simp [hx, List.getLast?_concat]
    · have hfx : (List.filter (fun l => l.mediaType == bmt) [x]) = [] := by
        simp [hx]
      rw [hfx, List.append_nil, ← ih]
      exact classifyStep_binaryLayer bmt _ x hx

/-! ## Distinctness of the platform-binary media type from the fixed role types -/

/-- No platform-binary media type is the provider media type. -/
theorem binaryMediaTypeFor_ne_provider (os arch : String) :
    binaryMediaTypeFor os arch ≠ providerMediaType := by
  intro h
  rw [binaryMediaTypeFor, String.append_assoc, String.append_assoc] at h
  have h2 : (binMediaRoot ++ (os ++ ("-" ++ arch))).data.take 29 =
      providerMediaType.data.take 29 := by rw [h]
  rw [String.data_append, List.take_append_of_le_length (by decide)] at h2
  exact absurd h2 (by decide)

/-- No platform-binary media type is the assets media type. -/
theorem binaryMediaTypeFor_ne_assets (os arch : String) :
    binaryMediaTypeFor os arch ≠ assetsMediaType := by
  intro h
  rw [binaryMediaTypeFor, String.append_assoc, String.append_assoc] at h
  have h2 : (binMediaRoot ++ (os ++ ("-" ++ arch))).data.take 29 =
      assetsMediaType.data.take 29 := by rw [h]
  rw [String.data_append, List.take_append_of_le_length (by decide)] at h2
  exact absurd h2 (by decide)

/-- No platform-binary media type is the empty-placeholder media type. -/
theorem binaryMediaTypeFor_ne_empty (os arch : String) :
    binaryMediaTypeFor os arch ≠ emptyMediaType := by
  intro h
  rw [binaryMediaTypeFor, String.append_assoc, String.append_assoc] at h
  have h2 : (binMediaRoot ++ (os ++ ("-" ++ arch))).data.take 17 =
      emptyMediaType.data.take 17 := by rw [h]
  rw [String.data_append, List.take_append_of_le_length (by decide)] at h2
  exact absurd h2 (by decide)

/-! ## Claims C1, C2, C3 -/

/-- C1: for every manifest containing exactly one layer with the provider media
type, one with the assets media type, and one with the binary media type of the
current platform (every remaining layer being an other-platform binary layer or
an empty placeholder), classification selects exactly those three layers, in
the order [provider, assets, platform binary], and `legacyFallback` is false. -/
theorem C1_selects_provider_assets_binary (os arch : String) (layers : List Descriptor)
    (p a b : Descriptor)
    (hp : layers.filter (fun l => l.mediaType == providerMediaType) = [p])
    (ha : layers.filter (fun l => l.mediaType == assetsMediaType) = [a])
    (hb : layers.filter (fun l => l.mediaType == binaryMediaTypeFor os arch) = [b])
    (hrest : ∀ l ∈ layers, l.mediaType = providerMediaType ∨ l.mediaType = assetsMediaType ∨
      l.mediaType = binaryMediaTypeFor os arch ∨ l.mediaType = emptyMediaType ∨
      (∃ x, l.mediaType = binMediaRoot ++ x ∧ l.mediaType ≠ binaryMediaTypeFor os arch)) :
    planLayers (binaryMediaTypeFor os arch) layers =
      Except.ok { downloadSet := [p, a, b], legacyFallback := false } := by
  have hpe := classify_provider_eq_getLast (binaryMediaTypeFor os arch) layers
  have hae := classify_assets_eq_getLast (binaryMediaTypeFor os arch) layers
  have hbe := classify_binary_eq_getLast (binaryMediaTypeFor os arch) layers
    (binaryMediaTypeFor_ne_empty os arch) (binaryMediaTypeFor_ne_provider os arch)
    (binaryMediaTypeFor_ne_assets os arch)
  rw [hp] at hpe
  rw [ha] at hae
  rw [hb] at hbe
  simp only [List.getLast?_singleton] at hpe hae hbe
  unfold planLayers
  simp [hpe, hae, hbe]

/-- C2 counterexample: a manifest whose single layer matches no role (and in
particular contains no current-platform binary layer) makes classification fail
with an error instead of entering the legacy fallback, contradicting the
unconditional claim that legacyFallback is set true. -/
theorem C2_counterexample :
    (∀ l ∈ [Descriptor.mk "application/example.v1" "sha256:x" 10],
        l.mediaType ≠ binaryMediaTypeFor "linux" "amd64")
    ∧ planLayers (binaryMediaTypeFor "linux" "amd64")
        [Descriptor.mk "application/example.v1" "sha256:x" 10] =
      Except.error "no compatible provider layers found in manifest" := by
  constructor
  · decide
  · rfl

/-- C2 (amended): for every manifest with no current-platform binary layer that
still contains a provider-typed or assets-typed layer, classification sets
`legacyFallback` true and `downloadSet` is all non-placeholder layers in
manifest order.  (Without any provider/assets layer the code errors out
instead, as the counterexample shows.) -/
theorem C2_legacy_fallback (os arch : String) (layers : List Descriptor)
    (hnb : ∀ l ∈ layers, l.mediaType ≠ binaryMediaTypeFor os arch)
    (hpa : (∃ l ∈ layers, l.mediaType = providerMediaType) ∨
           (∃ l ∈ layers, l.mediaType = assetsMediaType)) :
    planLayers (binaryMediaTypeFor os arch) layers =
      Except.ok { downloadSet := layers.filter (fun l => l.mediaType != emptyMediaType),
                  legacyFallback := true } := by
  have hbe := classify_binary_eq_getLast (binaryMediaTypeFor os arch) layers
    (binaryMediaTypeFor_ne_empty os arch) (binaryMediaTypeFor_ne_provider os arch)
    (binaryMediaTypeFor_ne_assets os arch)
  have hfb : layers.filter (fun l => l.mediaType == binaryMediaTypeFor os arch) = [] := by
    rw [List.filter_eq_nil_iff]
    intro l hl
    simpa using hnb l hl
  rw [hfb] at hbe
  simp only [List.getLast?_nil] at hbe
  have hpe := classify_provider_eq_getLast (binaryMediaTypeFor os arch) layers
  have hae := classify_assets_eq_getLast (binaryMediaTypeFor os arch) layers
  have hopt : (classifyLayers (binaryMediaTypeFor os arch) layers).providerLayer ≠ none ∨
      (classifyLayers (binaryMediaTypeFor os arch) layers).assetsLayer ≠ none := by
    rcases hpa with ⟨l, hl, hlp⟩ | ⟨l, hl, hla⟩
    · left
      rw [hpe]
      have hmem : l ∈ layers.filter (fun l => l.mediaType == providerMediaType) := by
        rw [List.mem_filter]; exact ⟨hl, by simp [hlp]⟩
      have hne : layers.filter (fun l => l.mediaType == providerMediaType) ≠ [] :=
        List.ne_nil_of_mem hmem
      simpa [← List.getLast?_isSome, Option.isSome_iff_ne_none] using hne
    · right
      rw [hae]
      have hmem : l ∈ layers.filter (fun l => l.mediaType == assetsMediaType) := by
        rw [List.mem_filter]; exact ⟨hl, by simp [hla]⟩
      have hne : layers.filter (fun l => l.mediaType == assetsMediaType) ≠ [] :=
        List.ne_nil_of_mem hmem
      simpa [← List.getLast?_isSome, Option.isSome_iff_ne_none] using hne
  unfold planLayers
  rcases hopt with hopt | hopt
  · rcases Option.ne_none_iff_exists.mp hopt with ⟨d, hd⟩
    simp [hbe, ← hd]
  · rcases Option.ne_none_iff_exists.mp hopt with ⟨e, he⟩
    simp [hbe, ← he]

/-- C3: for every manifest containing no provider-typed layer and no
assets-typed layer, classification returns a fatal error, whatever the other
layers are (the install aborts before any layer download starts, since in the
source the error returns precede the download loop). -/
theorem C3_missing_provider_and_assets_fails (bmt : String) (layers : List Descriptor)
    (hp : ∀ l ∈ layers, l.mediaType ≠ providerMediaType)
    (ha : ∀ l ∈ layers, l.mediaType ≠ assetsMediaType) :
    ∃ msg, planLayers bmt layers = Except.error msg := by
  have hpe := classify_provider_eq_getLast bmt layers
  have hae := classify_assets_eq_getLast bmt layers
  have hfp : layers.filter (fun l => l.mediaType == providerMediaType) = [] := by
    rw [List.filter_eq_nil_iff]
    intro l hl
    simpa using hp l hl
  have hfa : layers.filter (fun l => l.mediaType == assetsMediaType) = [] := by
    rw [List.filter_eq_nil_iff]
    intro l hl
    simpa using ha l hl
  rw [hfp] at hpe
  rw [hfa] at hae
  simp only [List.getLast?_nil] at hpe hae
  unfold planLayers
  rcases hB : (classifyLayers bmt layers).binaryLayer with _ | b
  · exact ⟨"no compatible provider layers found in manifest", by simp [hpe, hae, hB]⟩
  · exact ⟨"provider manifest layer not found in manifest", by simp [hpe, hae, hB]⟩

/-! ### Witnesses for C1, C2, C3 -/

/-- Witness for C1 on a concrete five-layer manifest (placeholder, provider,
assets, other-platform binary, linux/amd64 binary), run for linux/amd64. -/
theorem C1_selects_provider_assets_binary_witness :
    planLayers (binaryMediaTypeFor "linux" "amd64")
      [Descriptor.mk emptyMediaType "sha256:e" 2,
       Descriptor.mk providerMediaType "sha256:p" 4470,
       Descriptor.mk assetsMediaType "sha256:a" 3010,
       Descriptor.mk "application/vnd.sourceplane.bin.darwin-arm64" "sha256:d" 4400000,
       Descriptor.mk "application/vnd.sourceplane.bin.linux-amd64" "sha256:b" 4400000] =
      Except.ok (PullPlan.mk
        [Descriptor.mk providerMediaType "sha256:p" 4470,
         Descriptor.mk assetsMediaType "sha256:a" 3010,
         Descriptor.mk "application/vnd.sourceplane.bin.linux-amd64" "sha256:b" 4400000]
        false) := by
  apply C1_selects_provider_assets_binary "linux" "amd64"
  · decide
  · decide
  · decide
  · intro l hl
    fin_cases hl
    · right; right; right; left; rfl
    · left; rfl
    · right; left; rfl
    · right; right; right; right
      exact ⟨"darwin-arm64", by decide, by decide⟩
    · right; right; left; rfl

/-- Witness for the amended C2 on a concrete manifest with a provider layer,
an assets layer and only a darwin binary, run for linux/arm64: legacy fallback
selects the three non-placeholder layers in manifest order. -/
theorem C2_legacy_fallback_witness :
    planLayers (binaryMediaTypeFor "linux" "arm64")
      [Descriptor.mk emptyMediaType "sha256:e" 2,
       Descriptor.mk providerMediaType "sha256:p" 4470,
       Descriptor.mk assetsMediaType "sha256:a" 3010,
       Descriptor.mk "application/vnd.sourceplane.bin.darwin-arm64" "sha256:d" 4400000] =
      Except.ok (PullPlan.mk
        [Descriptor.mk providerMediaType "sha256:p" 4470,
         Descriptor.mk assetsMediaType "sha256:a" 3010,
         Descriptor.mk "application/vnd.sourceplane.bin.darwin-arm64" "sha256:d" 4400000]
        true) := by
  have h := C2_legacy_fallback "linux" "arm64"
    [Descriptor.mk emptyMediaType "sha256:e" 2,
     Descriptor.mk providerMediaType "sha256:p" 4470,
     Descriptor.mk assetsMediaType "sha256:a" 3010,
     Descriptor.mk "application/vnd.sourceplane.bin.darwin-arm64" "sha256:d" 4400000]
    (by decide)
    (Or.inl ⟨Descriptor.mk providerMediaType "sha256:p" 4470, by decide, rfl⟩)
  rw [h]
  rfl

/-- Witness for C3 on a concrete manifest holding only a current-platform
binary layer: classification still fails because provider/assets are missing. -/
theorem C3_missing_provider_and_assets_fails_witness :
    ∃ msg, planLayers (binaryMediaTypeFor "linux" "amd64")
      [Descriptor.mk "application/vnd.sourceplane.bin.linux-amd64" "sha256:b" 4400000] =
      Except.error msg :=
  C3_missing_provider_and_assets_fails _ _ (by decide) (by decide)

/-! ## Content extractor (oci.go, extractLayerContent lines 336-368) -/

/-- What `extractLayerContent` decides to do with the bytes of one layer.  The two
tar cases hand off to `extractTarGz`/`extractTar`; the write cases record the
target path (relative to the installation root), bytes and file mode passed to
`os.WriteFile`; `skipped` is the final `return nil` with nothing written. -/
inductive ExtractAction where
  | extractGzipTar
  | extractPlainTar
  | writeFileAt (path : List String) (bytes : List Nat) (mode : Nat)
  | skipped
deriving DecidableEq, Repr

/-- Gzip sniff: `bytes.HasPrefix(layerData, []byte{0x1f, 0x8b})`. -/
def hasGzipMagic (data : List Nat) : Bool :=
  data.take 2 == [0x1f, 0x8b]

/-- Tar sniff (oci.go `isTar`): at least 512 bytes and the bytes at offsets
257-261 spell `ustar` (0x75 0x73 0x74 0x61 0x72). -/
def isTar (data : List Nat) : Bool :=
  decide (512 ≤ data.length) && ((data.drop 257).take 5 == [0x75, 0x73, 0x74, 0x61, 0x72])

/-- Text sniff: `len(layerData) > 0 && layerData[0] >= 32 && layerData[0] < 127`. -/
def firstBytePrintable (data : List Nat) : Bool :=
  match data with
  | [] => false
  | b :: _ => decide (32 ≤ b) && decide (b < 127)

/-- The dispatch of `extractLayerContent`: gzip, then tar, then the 4,000,000
byte large-binary threshold (written to `bin/entrypoint`, mode 0755), then
printable first byte (written to `thin.provider.yaml`, mode 0644), else skip. -/
def extractLayerContent (data : List Nat) : ExtractAction :=
  if hasGzipMagic data then ExtractAction.extractGzipTar
  else if isTar data then ExtractAction.extractPlainTar
  else if 4000000 < data.length then
    ExtractAction.writeFileAt ["bin", "entrypoint"] data 0o755
  else if firstBytePrintable data then
    ExtractAction.writeFileAt ["thin.provider.yaml"] data 0o644
  else ExtractAction.skipped

/-- C4: the extractor sniffs in priority order gzip, tar, large binary,
printable text, nothing.  A payload over the fixed large-binary threshold that
is neither gzip nor tar is written verbatim to `bin/entrypoint`; in particular
any 5,000,000-byte non-gzip non-tar payload is.  Every non-gzip non-tar
payload at most the threshold whose first byte is printable ASCII is written
verbatim to `thin.provider.yaml`; in particular a 200-byte non-gzip payload
with a printable first byte is (200 bytes is below the 512-byte tar header, so
it cannot be tar).  A payload matching none of the sniffs is skipped, writing
nothing. -/
theorem C4_extractLayerContent_dispatch (data : List Nat) :
    (hasGzipMagic data = true → extractLayerContent data = ExtractAction.extractGzipTar)
  ∧ (hasGzipMagic data = false → isTar data = true →
       extractLayerContent data = ExtractAction.extractPlainTar)
  ∧ (hasGzipMagic data = false → isTar data = false → 4000000 < data.length →
       extractLayerContent data = ExtractAction.writeFileAt ["bin", "entrypoint"] data 0o755)
  ∧ (hasGzipMagic data = false → isTar data = false → data.length ≤ 4000000 →
       firstBytePrintable data = true →
       extractLayerContent data = ExtractAction.writeFileAt ["thin.provider.yaml"] data 0o644)
  ∧ (hasGzipMagic data = false → data.length = 200 → firstBytePrintable data = true →
       extractLayerContent data = ExtractAction.writeFileAt ["thin.provider.yaml"] data 0o644)
  ∧ (hasGzipMagic data = false → isTar data = false → data.length ≤ 4000000 →
       firstBytePrintable data = false → extractLayerContent data = ExtractAction.skipped) := by
  refine ⟨?_, ?_, ?_, ?_, ?_, ?_⟩
  · intro hg
    simp [extractLayerContent, hg]
  · intro hg ht
    simp [extractLayerContent, hg, ht]
  · intro hg ht hlen
    simp [extractLayerContent, hg, ht, hlen]
  · intro hg ht hlen hpr
    have hsmall : ¬ (4000000 < data.length) := by omega
    simp [extractLayerContent, hg, ht, hsmall, hpr]
  · intro hg hlen hpr
    have ht : isTar data = false := by
      simp [isTar, hlen]
    have hsmall : ¬ (4000000 < data.length) := by omega
    simp [extractLayerContent, hg, ht, hsmall, hpr]
  · intro hg ht hlen hpr
    have hsmall : ¬ (4000000 < data.length) := by omega
    simp [extractLayerContent, hg, ht, hsmall, hpr]

/-- Witness for C4: a 5,000,000-byte payload of zero bytes (not gzip, not tar)
is written verbatim to `bin/entrypoint`. -/
theorem C4_extractLayerContent_dispatch_witness :
    extractLayerContent (List.replicate 5000000 0) =
      ExtractAction.writeFileAt ["bin", "entrypoint"] (List.replicate 5000000 0) 0o755 := by
  have h := C4_extractLayerContent_dispatch (List.replicate 5000000 0)
  refine h.2.2.1 ?_ ?_ ?_
  · rw [hasGzipMagic, List.take_replicate]
    decide
  · rw [isTar, List.drop_replicate, List.take_replicate]
    have h5 : ((List.replicate (min 5 (5000000 - 257)) (0:Nat)) ==
        [0x75, 0x73, 0x74, 0x61, 0x72]) = false := by decide
    rw [h5, Bool.and_false]
  · rw [List.length_replicate]
    norm_num

/-! ## Tar extraction (oci.go, extractTarWithReader lines 399-439) -/

/-- The tar entry type flags the extractor distinguishes (`tar.TypeDir`,
`tar.TypeReg`, and everything else, which the switch ignores). -/
inductive TarType where
  | dir
  | reg
  | other
deriving DecidableEq, Repr

/-- One tar entry as delivered by `tar.Reader`: header name, type flag, header
mode and the file bytes read through `io.Copy`. -/
structure TarEntry where
  name : String
  typeflag : TarType
  mode : Nat
  content : List Nat
deriving DecidableEq, Repr

/-- A file location `filepath.Join(targetDir, header.Name)`, kept as the pair
of the target directory and the entry name so that distinct names give
distinct paths. -/
structure InstallPath where
  root : String
  rel : String
deriving DecidableEq, Repr

/-- The files on disk: each path maps to the written bytes and permission
bits.  Directory creation (`os.MkdirAll`) is not tracked: it never carries
content. -/
def DiskFiles : Type := InstallPath → Option (List Nat × Nat)

/-- One iteration of the extraction loop: directories are created (no file
content), regular files are created, filled by `io.Copy` and then chmodded to
`os.FileMode(header.Mode)` — the stored permission bits are the low nine bits
of the header mode (`mode % 512` models `& 0o777`); any other type flag is
ignored. -/
def applyTarEntry (targetDir : String) (fs : DiskFiles) (e : TarEntry) : DiskFiles :=
  match e.typeflag with
  | TarType.reg =>
      fun p => if p = InstallPath.mk targetDir e.name
        then some (e.content, e.mode % 512) else fs p
  | _ => fs

/-- The whole extraction loop of `extractTarWithReader` over the entries of
one tar payload, run against the files already on disk. -/
def extractTarWithReader (targetDir : String) (entries : List TarEntry) (fs : DiskFiles) :
    DiskFiles :=
  entries.foldl (applyTarEntry targetDir) fs

/-- Entries whose name differs leave a path untouched. -/
theorem extractTar_untouched (targetDir : String) (entries : List TarEntry) (fs : DiskFiles)
    (nm : String) (h : ∀ a ∈ entries, a.name ≠ nm) :
    extractTarWithReader targetDir entries fs (InstallPath.mk targetDir nm) =
      fs (InstallPath.mk targetDir nm) := by
  induction entries generalizing fs with
  | nil => rfl
  | cons x xs ih =>
    have hx : x.name ≠ nm := h x (List.mem_cons_self x xs)
    have hxs : ∀ a ∈ xs, a.name ≠ nm := fun a ha => h a (List.mem_cons_of_mem x ha)
    show extractTarWithReader targetDir xs (applyTarEntry targetDir fs x) _ = _
    rw [ih _ hxs]
    unfold applyTarEntry
    cases x.typeflag
    · rfl
    · exact if_neg (fun hcon => hx (congrArg InstallPath.rel hcon).symm)
    · rfl

/-- C6: extracting a tar payload that contains a regular-file entry (entry
names unique, header mode within the nine permission bits, e.g. an executable
0o755) yields a file at the joined path under the installation root whose
bytes are the content of the entry and whose permission bits equal its mode
exactly — the extraction loop itself restores the mode, no separate chmod by
the caller being needed. -/
theorem C6_tar_mode_roundtrip (targetDir : String) (entries : List TarEntry) (fs : DiskFiles)
    (e : TarEntry) (hmem : e ∈ entries) (hreg : e.typeflag = TarType.reg)
    (hnodup : (entries.map TarEntry.name).Nodup) (hmode : e.mode < 512) :
    extractTarWithReader targetDir entries fs (InstallPath.mk targetDir e.name) =
      some (e.content, e.mode) := by
  induction entries generalizing fs with
  | nil => cases hmem
  | cons x xs ih =>
    rw [List.map_cons, List.nodup_cons] at hnodup
    rcases List.mem_cons.mp hmem with rfl | hmem2
    · have hxs : ∀ a ∈ xs, a.name ≠ e.name := by
        intro a ha hcon
        exact hnodup.1 (hcon ▸ List.mem_map_of_mem TarEntry.name ha)
      show extractTarWithReader targetDir xs (applyTarEntry targetDir fs e) _ = _
      rw [extractTar_untouched targetDir xs _ e.name hxs]
      unfold applyTarEntry
      rw [hreg]
      simp [Nat.mod_eq_of_lt hmode]
    · exact ih _ hmem2 hnodup.2

/-- Witness for C6: a one-entry tar payload holding an executable file
(mode 0o755 = 493) extracted into an empty root ends up at the joined path
with exactly that mode. -/
theorem C6_tar_mode_roundtrip_witness :
    extractTarWithReader "root" [TarEntry.mk "bin/tool" TarType.reg 493 [7, 7]]
      (fun _ => none) (InstallPath.mk "root" "bin/tool") = some ([7, 7], 493) :=
  C6_tar_mode_roundtrip "root" [TarEntry.mk "bin/tool" TarType.reg 493 [7, 7]]
    (fun _ => none) (TarEntry.mk "bin/tool" TarType.reg 493 [7, 7])
    (by decide) rfl (by decide) (by decide)

/-! ## Download workers and progress (oci.go lines 174-198, 295-333) -/

/-- What one worker fetch produces: the layer bytes handed back for
extraction, and the cumulative byte counts passed to
`handler.UpdateProgress` during the transfer. -/
structure FetchOutcome where
  data : List Nat
  reports : List Int
deriving DecidableEq, Repr

/-- The byte-counting adapter `progressTracker.Read` (oci.go lines 310-323):
one read of `n` bytes adds `n` to the cumulative counter when `n > 0`.  The
type is declared in the source but `trackedFetchAll` never instantiates it. -/
def progressTrackerReadStep (bytesRead : Int) (n : Nat) : Int :=
  if 0 < n then bytesRead + n else bytesRead

/-- Embeds `trackedFetchAll` (oci.go lines 326-333): despite its name and the
`handler` parameter, the body only calls `content.FetchAll` and returns the
bytes — it never wraps the transfer in a `progressTracker` and never calls
`handler.UpdateProgress`, so the list of progress reports is empty. -/
def trackedFetchAll (layer : Descriptor) (fetched : List Nat) : FetchOutcome :=
  { data := fetched, reports := [] }

/-- C5 (evidence of the code bug): a worker fetch reports no byte progress at
all — `trackedFetchAll` returns the payload with an empty report list for
every layer, so no transfer is ever wrapped in the byte-counting adapter. -/
theorem C5_trackedFetchAll_never_reports (layer : Descriptor) (fetched : List Nat) :
    (trackedFetchAll layer fetched).data = fetched ∧
    (trackedFetchAll layer fetched).reports = [] :=
  ⟨rfl, rfl⟩

/-! ## Providers root (home.go, ThinHome lines 8-18) -/

/-- Embeds `ThinHome`.  Inputs: the value of the `THIN_HOME` environment
variable (the Go call `os.Getenv` yields `""` when unset), whether `os.Stat(".thin")`
succeeds in the current working directory, the working directory and the
home directory of the user.  `filepath.Join(x, ".thin")` is modelled as
`x ++ "/" ++ ".thin"`. -/
def ThinHome (envThinHome : String) (dotThinInCwd : Bool) (wd userHome : String) : String :=
  if envThinHome ≠ "" then envThinHome
  else if dotThinInCwd then wd ++ "/" ++ ".thin"
  else userHome ++ "/" ++ ".thin"

/-- C7 counterexample: with the override variable unset and a `.thin`
directory present in the working directory, the providers root is the
working-directory `.thin` — neither the override value (unset) nor the
home-derived default — so the override and the home default are not the only
two sources. -/
theorem C7_counterexample :
    ThinHome "" true "/work" "/home/user" = "/work" ++ "/" ++ ".thin" ∧
    ThinHome "" true "/work" "/home/user" ≠ "/home/user" ++ "/" ++ ".thin" := by
  constructor
  · rfl
  · decide

/-- C7 (amended): the providers root comes from one of three sources, in
priority order: the non-empty override environment variable; else a `.thin`
directory in the current working directory when one exists; else the default
derived from the home directory of the user. -/
theorem C7_thinHome_three_sources (envThinHome : String) (dotThinInCwd : Bool)
    (wd userHome : String) :
    (envThinHome ≠ "" → ThinHome envThinHome dotThinInCwd wd userHome = envThinHome) ∧
    (envThinHome = "" → dotThinInCwd = true →
       ThinHome envThinHome dotThinInCwd wd userHome = wd ++ "/" ++ ".thin") ∧
    (envThinHome = "" → dotThinInCwd = false →
       ThinHome envThinHome dotThinInCwd wd userHome = userHome ++ "/" ++ ".thin") := by
  refine ⟨?_, ?_, ?_⟩
  · intro h
    simp [ThinHome, h]
  · intro h hd
    simp [ThinHome, h, hd]
  · intro h hd
    simp [ThinHome, h, hd]

/-- Witness for the amended C7: a set override wins; with it empty, the
working-directory `.thin` wins over the home default. -/
theorem C7_thinHome_three_sources_witness :
    ThinHome "/custom/dir" false "/w" "/h" = "/custom/dir" :=
  (C7_thinHome_three_sources "/custom/dir" false "/w" "/h").1 (by decide)

/-! ## Interactive gauge (status handler, TTYStatusHandler.render) -/

/-- The completion fraction computed by `TTYStatusHandler.render`:
`progress := float64(p.BytesRead) / float64(p.Descriptor.Size)` followed by
`if progress > 1.0 { progress = 1.0 }`.  The float64 arithmetic is modelled
over ℚ. -/
def renderProgress (bytesRead size : ℚ) : ℚ :=
  let progress := bytesRead / size
  if progress > 1 then 1 else progress

/-- C8: at every render the displayed fraction is bytesRead divided by the
declared layer size clamped to at most 1, so the gauge (and the derived
percentage) never exceeds 100% even when more bytes arrive than the declared
size. -/
theorem C8_render_fraction_clamped (bytesRead size : ℚ)
    (hb : 0 ≤ bytesRead) (hs : 0 < size) :
    renderProgress bytesRead size = min (bytesRead / size) 1 ∧
    renderProgress bytesRead size ≤ 1 ∧
    100 * renderProgress bytesRead size ≤ 100 := by
  have hmin : renderProgress bytesRead size = min (bytesRead / size) 1 := by
    unfold renderProgress
    rcases le_or_lt (bytesRead / size) 1 with h | h
    · rw [if_neg (not_lt.mpr h), min_eq_left h]
    · rw [if_pos h, min_eq_right h.le]
  refine ⟨hmin, ?_, ?_⟩
  · rw [hmin]
    exact min_le_right _ _
  · rw [hmin]
    have := min_le_right (bytesRead / size) 1
    linarith

/-- Witness for C8: 200 bytes read of a declared 100 clamp to exactly 1. -/
theorem C8_render_fraction_clamped_witness :
    renderProgress 200 100 = min ((200 : ℚ) / 100) 1 ∧
    renderProgress 200 100 ≤ 1 ∧
    100 * renderProgress 200 100 ≤ 100 :=
  C8_render_fraction_clamped 200 100 (by norm_num) (by norm_num)

/-! ## Claim C9: duplicate role layers -/

/-- A selected provider layer carries the provider media type. -/
theorem providerSel_mediaType (bmt : String) (layers : List Descriptor) (d : Descriptor)
    (h : (classifyLayers bmt layers).providerLayer = some d) :
    d.mediaType = providerMediaType := by
  rw [classify_provider_eq_getLast] at h
  have hmem := List.mem_of_mem_getLast? h
  rw [List.mem_filter] at hmem
  simpa using hmem.2

/-- A selected assets layer carries the assets media type. -/
theorem assetsSel_mediaType (bmt : String) (layers : List Descriptor) (d : Descriptor)
    (h : (classifyLayers bmt layers).assetsLayer = some d) :
    d.mediaType = assetsMediaType := by
  rw [classify_assets_eq_getLast] at h
  have hmem := List.mem_of_mem_getLast? h
  rw [List.mem_filter] at hmem
  simpa using hmem.2

/-- A selected platform-binary layer carries the platform-binary media type. -/
theorem binarySel_mediaType (os arch : String) (layers : List Descriptor) (d : Descriptor)
    (h : (classifyLayers (binaryMediaTypeFor os arch) layers).binaryLayer = some d) :
    d.mediaType = binaryMediaTypeFor os arch := by
  rw [classify_binary_eq_getLast _ _ (binaryMediaTypeFor_ne_empty os arch)
    (binaryMediaTypeFor_ne_provider os arch) (binaryMediaTypeFor_ne_assets os arch)] at h
  have hmem := List.mem_of_mem_getLast? h
  rw [List.mem_filter] at hmem
  simpa using hmem.2

/-- Per-role filter counts of a singleton list holding a provider-typed layer. -/
theorem counts_of_provider (d : Descriptor) (h : d.mediaType = providerMediaType)
    (os arch : String) :
    (List.filter (fun l => l.mediaType == providerMediaType) [d]).length = 1 ∧
    (List.filter (fun l => l.mediaType == assetsMediaType) [d]).length = 0 ∧
    (List.filter (fun l => l.mediaType == binaryMediaTypeFor os arch) [d]).length = 0 := by
  have e1 : (providerMediaType == assetsMediaType) = false := by decide
  have e2 : (providerMediaType == binaryMediaTypeFor os arch) = false :=
    beq_eq_false_iff_ne.mpr (Ne.symm (binaryMediaTypeFor_ne_provider os arch))
  exact ⟨by simp [h], by simp [h, e1], by simp [h, e2]⟩

/-- Per-role filter counts of a singleton list holding an assets-typed layer. -/
theorem counts_of_assets (d : Descriptor) (h : d.mediaType = assetsMediaType)
    (os arch : String) :
    (List.filter (fun l => l.mediaType == providerMediaType) [d]).length = 0 ∧
    (List.filter (fun l => l.mediaType == assetsMediaType) [d]).length = 1 ∧
    (List.filter (fun l => l.mediaType == binaryMediaTypeFor os arch) [d]).length = 0 := by
  have e1 : (assetsMediaType == providerMediaType) = false := by decide
  have e2 : (assetsMediaType == binaryMediaTypeFor os arch) = false :=
    beq_eq_false_iff_ne.mpr (Ne.symm (binaryMediaTypeFor_ne_assets os arch))
  exact ⟨by simp [h, e1], by simp [h], by simp [h, e2]⟩

/-- Per-role filter counts of a singleton list holding a platform-binary
layer. -/
theorem counts_of_binary (os arch : String) (d : Descriptor)
    (h : d.mediaType = binaryMediaTypeFor os arch) :
    (List.filter (fun l => l.mediaType == providerMediaType) [d]).length = 0 ∧
    (List.filter (fun l => l.mediaType == assetsMediaType) [d]).length = 0 ∧
    (List.filter (fun l => l.mediaType == binaryMediaTypeFor os arch) [d]).length = 1 := by
  have e1 : (binaryMediaTypeFor os arch == providerMediaType) = false :=
    beq_eq_false_iff_ne.mpr (binaryMediaTypeFor_ne_provider os arch)
  have e2 : (binaryMediaTypeFor os arch == assetsMediaType) = false :=
    beq_eq_false_iff_ne.mpr (binaryMediaTypeFor_ne_assets os arch)
  exact ⟨by simp [h, e1], by simp [h, e2], by simp [h]⟩

/-- The non-legacy download set (provider, assets, binary selections in order)
holds at most one layer of each role media type. -/
theorem downloadSet_counts (os arch : String) (P A B : Option Descriptor)
    (hp : ∀ d, P = some d → d.mediaType = providerMediaType)
    (ha : ∀ d, A = some d → d.mediaType = assetsMediaType)
    (hb : ∀ d, B = some d → d.mediaType = binaryMediaTypeFor os arch) :
    (((P.toList ++ A.toList ++ B.toList).filter
        (fun l => l.mediaType == providerMediaType)).length ≤ 1) ∧
    (((P.toList ++ A.toList ++ B.toList).filter
        (fun l => l.mediaType == assetsMediaType)).length ≤ 1) ∧
    (((P.toList ++ A.toList ++ B.toList).filter
        (fun l => l.mediaType == binaryMediaTypeFor os arch)).length ≤ 1) := by
  rcases P with _ | p <;> rcases A with _ | a <;> rcases B with _ | b
  all_goals simp only [Option.toList_some, Option.toList_none, List.append_nil,
    List.nil_append, List.filter_append, List.length_append, List.filter_nil,
    List.length_nil]
  · simp
  · obtain ⟨b1, b2, b3⟩ := counts_of_binary os arch b (hb b rfl)
    refine ⟨?_, ?_, ?_⟩ <;> simp only [b1, b2, b3] <;> omega
  · obtain ⟨a1, a2, a3⟩ := counts_of_assets a (ha a rfl) os arch
    refine ⟨?_, ?_, ?_⟩ <;> simp only [a1, a2, a3] <;> omega
  · obtain ⟨a1, a2, a3⟩ := counts_of_assets a (ha a rfl) os arch
    obtain ⟨b1, b2, b3⟩ := counts_of_binary os arch b (hb b rfl)
    refine ⟨?_, ?_, ?_⟩ <;> simp only [a1, a2, a3, b1, b2, b3] <;> omega
  · obtain ⟨p1, p2, p3⟩ := counts_of_provider p (hp p rfl) os arch
    refine ⟨?_, ?_, ?_⟩ <;> simp only [p1, p2, p3] <;> omega
  · obtain ⟨p1, p2, p3⟩ := counts_of_provider p (hp p rfl) os arch
    obtain ⟨b1, b2, b3⟩ := counts_of_binary os arch b (hb b rfl)
    refine ⟨?_, ?_, ?_⟩ <;> simp only [p1, p2, p3, b1, b2, b3] <;> omega
  · obtain ⟨p1, p2, p3⟩ := counts_of_provider p (hp p rfl) os arch
    obtain ⟨a1, a2, a3⟩ := counts_of_assets a (ha a rfl) os arch
    refine ⟨?_, ?_, ?_⟩ <;> simp only [p1, p2, p3, a1, a2, a3] <;> omega
  · obtain ⟨p1, p2, p3⟩ := counts_of_provider p (hp p rfl) os arch
    obtain ⟨a1, a2, a3⟩ := counts_of_assets a (ha a rfl) os arch
    obtain ⟨b1, b2, b3⟩ := counts_of_binary os arch b (hb b rfl)
    refine ⟨?_, ?_, ?_⟩ <;> simp only [p1, p2, p3, a1, a2, a3, b1, b2, b3] <;> omega

/-- C9 counterexample: a manifest holding two provider-typed layers and no
platform binary takes the legacy fallback, whose download set contains both
provider-typed layers — refuting the claim that the download set contains at
most one layer per role in every duplicate scenario. -/
theorem C9_counterexample :
    planLayers (binaryMediaTypeFor "linux" "amd64")
      [Descriptor.mk providerMediaType "sha256:p1" 1,
       Descriptor.mk providerMediaType "sha256:p2" 2] =
      Except.ok (PullPlan.mk
        [Descriptor.mk providerMediaType "sha256:p1" 1,
         Descriptor.mk providerMediaType "sha256:p2" 2] true) ∧
    ([Descriptor.mk providerMediaType "sha256:p1" 1,
      Descriptor.mk providerMediaType "sha256:p2" 2].filter
        (fun l => l.mediaType == providerMediaType)).length = 2 := by
  constructor
  · rfl
  · rfl

/-- C9 (amended): with duplicate role media types, classification silently
keeps the last matching layer per role and reports no error for the
duplicates; and whenever classification did not fall back to legacy mode, the
download set contains at most one layer per role (in legacy fallback it is all
non-placeholder layers and may repeat a role, as the counterexample shows). -/
theorem C9_duplicates_last_wins (os arch : String) (layers : List Descriptor) :
    ((classifyLayers (binaryMediaTypeFor os arch) layers).providerLayer =
       (layers.filter (fun l => l.mediaType == providerMediaType)).getLast?)
  ∧ ((classifyLayers (binaryMediaTypeFor os arch) layers).assetsLayer =
       (layers.filter (fun l => l.mediaType == assetsMediaType)).getLast?)
  ∧ ((classifyLayers (binaryMediaTypeFor os arch) layers).binaryLayer =
       (layers.filter (fun l => l.mediaType == binaryMediaTypeFor os arch)).getLast?)
  ∧ (((∃ l ∈ layers, l.mediaType = providerMediaType) ∨
      (∃ l ∈ layers, l.mediaType = assetsMediaType)) →
       ∃ plan, planLayers (binaryMediaTypeFor os arch) layers = Except.ok plan)
  ∧ (∀ plan, planLayers (binaryMediaTypeFor os arch) layers = Except.ok plan →
       plan.legacyFallback = false →
       (plan.downloadSet.filter (fun l => l.mediaType == providerMediaType)).length ≤ 1 ∧
       (plan.downloadSet.filter (fun l => l.mediaType == assetsMediaType)).length ≤ 1 ∧
       (plan.downloadSet.filter (fun l => l.mediaType == binaryMediaTypeFor os arch)).length ≤ 1) := by
  refine ⟨classify_provider_eq_getLast _ _, classify_assets_eq_getLast _ _,
    classify_binary_eq_getLast _ _ (binaryMediaTypeFor_ne_empty os arch)
      (binaryMediaTypeFor_ne_provider os arch) (binaryMediaTypeFor_ne_assets os arch),
    ?_, ?_⟩
  · intro hpa
    have hopt : (classifyLayers (binaryMediaTypeFor os arch) layers).providerLayer ≠ none ∨
        (classifyLayers (binaryMediaTypeFor os arch) layers).assetsLayer ≠ none := by
      rcases hpa with ⟨l, hl, hlp⟩ | ⟨l, hl, hla⟩
      · left
        rw [classify_provider_eq_getLast]
        have hmem : l ∈ layers.filter (fun l => l.mediaType == providerMediaType) := by
          rw [List.mem_filter]; exact ⟨hl, by simp [hlp]⟩
        have hne : layers.filter (fun l => l.mediaType == providerMediaType) ≠ [] :=
          List.ne_nil_of_mem hmem
        simpa [← List.getLast?_isSome, Option.isSome_iff_ne_none] using hne
      · right
        rw [classify_assets_eq_getLast]
        have hmem : l ∈ layers.filter (fun l => l.mediaType == assetsMediaType) := by
          rw [List.mem_filter]; exact ⟨hl, by simp [hla]⟩
        have hne : layers.filter (fun l => l.mediaType == assetsMediaType) ≠ [] :=
          List.ne_nil_of_mem hmem
        simpa [← List.getLast?_isSome, Option.isSome_iff_ne_none] using hne
    unfold planLayers
    rcases hB : (classifyLayers (binaryMediaTypeFor os arch) layers).binaryLayer with _ | b <;>
      rcases hopt with hopt | hopt <;>
        rcases Option.ne_none_iff_exists.mp hopt with ⟨d, hd⟩
    · exact ⟨PullPlan.mk (layers.filter (fun l => l.mediaType != emptyMediaType)) true,
        by simp [hB, ← hd]⟩
    · exact ⟨PullPlan.mk (layers.filter (fun l => l.mediaType != emptyMediaType)) true,
        by simp [hB, ← hd]⟩
    · exact ⟨PullPlan.mk
        (d :: ((classifyLayers (binaryMediaTypeFor os arch) layers).assetsLayer.toList ++ [b]))
        false, by simp [hB, ← hd]⟩
    · exact ⟨PullPlan.mk
        ((classifyLayers (binaryMediaTypeFor os arch) layers).providerLayer.toList ++ [d, b])
        false, by simp [hB, ← hd]⟩
  · intro plan hok hleg
    have hset : plan.downloadSet =
        (classifyLayers (binaryMediaTypeFor os arch) layers).providerLayer.toList ++
        (classifyLayers (binaryMediaTypeFor os arch) layers).assetsLayer.toList ++
        (classifyLayers (binaryMediaTypeFor os arch) layers).binaryLayer.toList := by
      simp only [planLayers] at hok
      split_ifs at hok with h1 h2 h3
      · cases hok
        simp at hleg
      · cases hok
        rfl
    rw [hset]
    exact downloadSet_counts os arch
      (classifyLayers (binaryMediaTypeFor os arch) layers).providerLayer
      (classifyLayers (binaryMediaTypeFor os arch) layers).assetsLayer
      (classifyLayers (binaryMediaTypeFor os arch) layers).binaryLayer
      (fun d hd => providerSel_mediaType _ _ _ hd)
      (fun d hd => assetsSel_mediaType _ _ _ hd)
      (fun d hd => binarySel_mediaType _ _ _ _ hd)

/-- Witness for the amended C9: a manifest with two provider-typed layers, an
assets layer and a linux/amd64 binary yields a non-legacy plan whose download
set holds at most one layer per role. -/
theorem C9_duplicates_last_wins_witness :
    (((PullPlan.mk
        [Descriptor.mk providerMediaType "sha256:p2" 2,
         Descriptor.mk assetsMediaType "sha256:a" 3,
         Descriptor.mk "application/vnd.sourceplane.bin.linux-amd64" "sha256:b" 4] false
      ).downloadSet.filter (fun l => l.mediaType == providerMediaType)).length ≤ 1) ∧
    (((PullPlan.mk
        [Descriptor.mk providerMediaType "sha256:p2" 2,
         Descriptor.mk assetsMediaType "sha256:a" 3,
         Descriptor.mk "application/vnd.sourceplane.bin.linux-amd64" "sha256:b" 4] false
      ).downloadSet.filter (fun l => l.mediaType == assetsMediaType)).length ≤ 1) ∧
    (((PullPlan.mk
        [Descriptor.mk providerMediaType "sha256:p2" 2,
         Descriptor.mk assetsMediaType "sha256:a" 3,
         Descriptor.mk "application/vnd.sourceplane.bin.linux-amd64" "sha256:b" 4] false
      ).downloadSet.filter (fun l => l.mediaType == binaryMediaTypeFor "linux" "amd64")).length
        ≤ 1) :=
  (C9_duplicates_last_wins "linux" "amd64"
    [Descriptor.mk providerMediaType "sha256:p1" 1,
     Descriptor.mk providerMediaType "sha256:p2" 2,
     Descriptor.mk assetsMediaType "sha256:a" 3,
     Descriptor.mk "application/vnd.sourceplane.bin.linux-amd64" "sha256:b" 4]).2.2.2.2
    (PullPlan.mk
      [Descriptor.mk providerMediaType "sha256:p2" 2,
       Descriptor.mk assetsMediaType "sha256:a" 3,
       Descriptor.mk "application/vnd.sourceplane.bin.linux-amd64" "sha256:b" 4] false)
    (by rfl) rfl

/-! ## Hand-rolled substring helpers (oci.go lines 486-505) -/

/-- The slice comparison `s[i:i+len(substr)] == substr` of the Go loops,
on strings as char lists. -/
def sliceEq (s sub : List Char) (i : Nat) : Bool :=
  (s.drop i).take sub.length == sub

/-- The number of loop iterations both helpers execute: the Go conditions
`i < len(s)-len(substr)+1` (in `contains`) and `i <= len(s)-len(substr)` (in
`lastIndexOf`) run over exactly the ints `0 ≤ i < len(s)-len(substr)+1`,
computed in ℤ because the bound is negative when the substring is longer than
the string. -/
def goIterCount (s sub : List Char) : Nat :=
  ((s.length : Int) - (sub.length : Int) + 1).toNat

/-- Embeds `contains` (oci.go lines 486-494): scan all window offsets and
return true on the first slice match. -/
def contains (s sub : List Char) : Bool :=
  (List.range (goIterCount s sub)).any (fun i => sliceEq s sub i)

/-- Embeds `lastIndexOf` (oci.go lines 496-505): scan all window offsets,
remembering the most recent match over an accumulator started at -1. -/
def lastIndexOf (s sub : List Char) : Int :=
  (List.range (goIterCount s sub)).foldl
    (fun acc i => if sliceEq s sub i then (i : Int) else acc) (-1)

/-- Specification-side predicate: `sub` occurs in `s` at offset `i` (the
meaning of an index reported by the standard library `strings.LastIndex`). -/
def occursAt (s sub : List Char) (i : Nat) : Prop :=
  i + sub.length ≤ s.length ∧ (s.drop i).take sub.length = sub

/-- An occurrence is exactly an in-range iteration with a slice match. -/
theorem occursAt_iff (s sub : List Char) (i : Nat) :
    occursAt s sub i ↔ (i < goIterCount s sub ∧ sliceEq s sub i = true) := by
  unfold occursAt goIterCount sliceEq
  rw [beq_iff_eq]
  constructor
  · rintro ⟨hb, hs1⟩
    exact ⟨by omega, hs1⟩
  · rintro ⟨hb, hs1⟩
    exact ⟨by omega, hs1⟩

/-- Occurrences at some offset are exactly substring decompositions. -/
theorem exists_occursAt_iff (s sub : List Char) :
    (∃ i, occursAt s sub i) ↔ ∃ pre post, s = pre ++ sub ++ post := by
  constructor
  · rintro ⟨i, hb, hs1⟩
    refine ⟨s.take i, s.drop (i + sub.length), ?_⟩
    have h1 : s = s.take i ++ s.drop i := (List.take_append_drop i s).symm
    have h2 : s.drop i = (s.drop i).take sub.length ++ (s.drop i).drop sub.length :=
      (List.take_append_drop sub.length (s.drop i)).symm
    rw [List.drop_drop] at h2
    have h3 : s = s.take i ++ (sub ++ s.drop (i + sub.length)) := by
      calc s = s.take i ++ s.drop i := h1
      _ = s.take i ++ ((s.drop i).take sub.length ++ s.drop (i + sub.length)) := by rw [← h2]
      _ = s.take i ++ (sub ++ s.drop (i + sub.length)) := by rw [hs1]
    rw [List.append_assoc]
    exact h3
  · rintro ⟨pre, post, rfl⟩
    refine ⟨pre.length, ?_, ?_⟩
    · simp only [List.append_assoc, List.length_append]
      omega
    · rw [List.append_assoc, List.drop_left, List.take_left]

/-- The accumulator scan over `range n` returns -1 exactly when no index
matches, and returns j exactly when j is the greatest matching index. -/
theorem foldl_last_match (P : Nat → Bool) (n : Nat) :
    (((List.range n).foldl (fun acc i => if P i then (i : Int) else acc) (-1) = -1) ↔
      ∀ i, i < n → P i = false)
  ∧ (∀ j : Nat, ((List.range n).foldl (fun acc i => if P i then (i : Int) else acc) (-1) =
        (j : Int)) ↔
      (j < n ∧ P j = true ∧ ∀ i, i < n → P i = true → i ≤ j)) := by
  induction n with
  | zero =>
    constructor
    · simp
    · intro j
      simp only [List.range_zero, List.foldl_nil]
      constructor
      · intro h
        omega
      · rintro ⟨h, -, -⟩
        omega
  | succ n ih =>
    rw [List.range_succ]
    simp only [List.foldl_append, List.foldl_cons, List.foldl_nil]
    by_cases hn : P n = true
    · rw [if_pos hn]
      constructor
      · constructor
        · intro h
          omega
        · intro h
          exact absurd (h n (by omega)) (by simp [hn])
      · intro j
        constructor
        · intro h
          have hj : j = n := by omega
          subst hj
          exact ⟨by omega, hn, fun i hi _ => by omega⟩
        · rintro ⟨hj1, hj2, hj3⟩
          have hnj : n ≤ j := hj3 n (by omega) hn
          have : j = n := by omega
          subst this
          rfl
    · rw [if_neg hn]
      rw [Bool.not_eq_true] at hn
      constructor
      · rw [ih.1]
        constructor
        · intro h i hi
          rcases Nat.lt_succ_iff_lt_or_eq.mp hi with hi2 | hi2
          · exact h i hi2
          · subst hi2
            exact hn
        · intro h i hi
          exact h i (by omega)
      · intro j
        rw [ih.2 j]
        constructor
        · rintro ⟨hj1, hj2, hj3⟩
          refine ⟨by omega, hj2, ?_⟩
          intro i hi hPi
          rcases Nat.lt_succ_iff_lt_or_eq.mp hi with hi2 | hi2
          · exact hj3 i hi2 hPi
          · subst hi2
            rw [hn] at hPi
            cases hPi
        · rintro ⟨hj1, hj2, hj3⟩
          have hj4 : j ≠ n := by
            intro h
            subst h
            rw [hn] at hj2
            cases hj2
          refine ⟨by omega, hj2, fun i hi hPi => hj3 i (by omega) hPi⟩

/-- C10: the hand-rolled helpers agree with the standard library semantics on
all inputs: `contains s sub` is true exactly when `sub` occurs as a substring
of `s` (in particular it is true for the empty substring), and `lastIndexOf`
returns -1 exactly when `sub` does not occur, and returns `j` exactly when `j`
is the greatest offset at which `sub` occurs — the documented behaviour of
`strings.Contains` and `strings.LastIndex`. -/
theorem C10_contains_lastIndexOf_agree (s sub : List Char) :
    (contains s sub = true ↔ ∃ pre post, s = pre ++ sub ++ post)
  ∧ (contains s [] = true)
  ∧ (lastIndexOf s sub = -1 ↔ ¬ ∃ pre post, s = pre ++ sub ++ post)
  ∧ (∀ j : Nat, lastIndexOf s sub = (j : Int) ↔
       (occursAt s sub j ∧ ∀ i, occursAt s sub i → i ≤ j)) := by
  have hex : (∃ i, occursAt s sub i) ↔ ∃ pre post, s = pre ++ sub ++ post :=
    exists_occursAt_iff s sub
  have hcon : contains s sub = true ↔ ∃ i, occursAt s sub i := by
    unfold contains
    rw [List.any_eq_true]
    constructor
    · rintro ⟨i, hi, hsl⟩
      exact ⟨i, (occursAt_iff s sub i).mpr ⟨List.mem_range.mp hi, hsl⟩⟩
    · rintro ⟨i, hocc⟩
      rcases (occursAt_iff s sub i).mp hocc with ⟨hi, hsl⟩
      exact ⟨i, List.mem_range.mpr hi, hsl⟩
  refine ⟨hcon.trans hex, ?_, ?_, ?_⟩
  · have h0 : occursAt s [] 0 := by
      constructor
      · simp
      · simp
    have : contains s [] = true ↔ ∃ i, occursAt s [] i := by
      unfold contains
      rw [List.any_eq_true]
      constructor
      · rintro ⟨i, hi, hsl⟩
        exact ⟨i, (occursAt_iff s [] i).mpr ⟨List.mem_range.mp hi, hsl⟩⟩
      · rintro ⟨i, hocc⟩
        rcases (occursAt_iff s [] i).mp hocc with ⟨hi, hsl⟩
        exact ⟨i, List.mem_range.mpr hi, hsl⟩
    exact this.mpr ⟨0, h0⟩
  · rw [← hex]
    unfold lastIndexOf
    rw [(foldl_last_match (fun i => sliceEq s sub i) (goIterCount s sub)).1]
    constructor
    · rintro h ⟨i, hocc⟩
      rcases (occursAt_iff s sub i).mp hocc with ⟨hi, hsl⟩
      rw [h i hi] at hsl
      cases hsl
    · intro h i hi
      rcases hB : sliceEq s sub i with _ | _
      · rfl
      · exact absurd ⟨i, (occursAt_iff s sub i).mpr ⟨hi, hB⟩⟩ h
  · intro j
    unfold lastIndexOf
    rw [(foldl_last_match (fun i => sliceEq s sub i) (goIterCount s sub)).2 j]
    constructor
    · rintro ⟨hj1, hj2, hj3⟩
      refine ⟨(occursAt_iff s sub j).mpr ⟨hj1, hj2⟩, ?_⟩
      intro i hocc
      rcases (occursAt_iff s sub i).mp hocc with ⟨hi, hsl⟩
      exact hj3 i hi hsl
    · rintro ⟨hocc, hmax⟩
      rcases (occursAt_iff s sub j).mp hocc with ⟨hj1, hj2⟩
      refine ⟨hj1, hj2, ?_⟩
      intro i hi hPi
      exact hmax i ((occursAt_iff s sub i).mpr ⟨hi, hPi⟩)

/-- Witness for C10: on the string "abcab" and substring "ab", the helper
returns 3, which is an occurrence offset that dominates every other one. -/
theorem C10_contains_lastIndexOf_agree_witness :
    occursAt ['a', 'b', 'c', 'a', 'b'] ['a', 'b'] 3 ∧
    ∀ i, occursAt ['a', 'b', 'c', 'a', 'b'] ['a', 'b'] i → i ≤ 3 :=
  ((C10_contains_lastIndexOf_agree ['a', 'b', 'c', 'a', 'b'] ['a', 'b']).2.2.2 3).mp (by decide)
